import Mathlib

/-!
Verification development for a Reddit data-collection pipeline
(`reddit_code.py`): two fetchers (`download_hot_posts`, `search_posts`),
a persister (`save_to_csv`), and a driver that concatenates the two
fetch results and persists them.

The embedding models Python values where the distinctions matter:
argument validation sees arbitrary Python values (`PyVal`), fetched
posts are records with the attributes the code reads (`Post`), produced
records are flat mappings whose fields are either present values or the
Python `None` missing marker (`Field`), and the API client is a function
parameter that either yields a list of posts or raises.
-/

namespace Reddit

/-- A Python value, as far as the fetchers' input validation can
distinguish them: `None`, booleans, integers, strings and lists.
Python `bool` is a subclass of `int`, which `isinstance` checks see. -/
inductive PyVal where
  | vNone
  | vBool (b : Bool)
  | vInt (n : Int)
  | vStr (s : String)
  | vList (xs : List PyVal)

/-- Python truthiness of a value: `None` and `False` are falsy, numbers
are truthy iff nonzero, strings and lists iff non-empty. -/
def pyTruthy : PyVal → Bool
  | .vNone => false
  | .vBool b => b
  | .vInt n => n != 0
  | .vStr s => s != ""
  | .vList xs => !xs.isEmpty

/-- Python `isinstance(x, list)`. -/
def PyVal.isList : PyVal → Bool
  | .vList _ => true
  | _ => false

/-- Python `isinstance(x, str)`. -/
def PyVal.isStr : PyVal → Bool
  | .vStr _ => true
  | _ => false

/-- Python `isinstance(x, int)`; `bool` is a subclass of `int`. -/
def PyVal.isInt : PyVal → Bool
  | .vInt _ => true
  | .vBool _ => true
  | _ => false

/-- The items of a Python list value (empty for non-lists). -/
def PyVal.listItems : PyVal → List PyVal
  | .vList xs => xs
  | _ => []

/-- The string carried by a Python string value. -/
def PyVal.toStr : PyVal → String
  | .vStr s => s
  | _ => ""

/-- The integer carried by a Python integer value (`True` counts as 1,
`False` as 0, matching `bool <= int`). -/
def PyVal.toInt : PyVal → Int
  | .vInt n => n
  | .vBool b => if b then 1 else 0
  | _ => 0

/-- The forum names carried by a validated forum-name list argument. -/
def pyStrItems (v : PyVal) : List String :=
  v.listItems.map PyVal.toStr

/-- A fetched post object, with the attributes the fetchers read.
`author` is `none` for a deleted author (Python `None`), otherwise an
always-truthy author object carrying a name; `link_flair_text` is `none`
or a string; `subreddit` is the post object's own subreddit attribute,
which the code never reads (records carry the caller-supplied name). -/
structure Post where
  title : String
  score : Int
  upvote_ratio : Rat
  num_comments : Int
  author : Option String
  subreddit : String
  url : String
  permalink : String
  created_utc : Rat
  is_self : Bool
  selftext : String
  link_flair_text : Option String
  domain : String
deriving DecidableEq

/-- One field of a produced record: either the Python `None` missing
marker or a present value. -/
inductive Field where
  | missing
  | str (s : String)
  | int (n : Int)
  | rat (q : Rat)
  | bool (b : Bool)
deriving DecidableEq

/-- `x if x else None` for a string attribute. -/
def strF (s : String) : Field :=
  if s = "" then .missing else .str s

/-- `x if x else None` for an integer attribute. -/
def intF (n : Int) : Field :=
  if n = 0 then .missing else .int n

/-- `x if x else None` for a numeric (ratio / timestamp) attribute. -/
def ratF (q : Rat) : Field :=
  if q = 0 then .missing else .rat q

/-- `x if x else None` for a boolean attribute. -/
def boolF (b : Bool) : Field :=
  if b then .bool true else .missing

/-- `post.author if post.author else None`: a `None` author is falsy,
an author object is truthy. -/
def authorF : Option String → Field
  | none => .missing
  | some a => .str a

/-- `post.link_flair_text if post.link_flair_text else None`: `None`
and the empty string are both falsy. -/
def optStrF : Option String → Field
  | none => .missing
  | some s => strF s

/-- `post.selftext[:500] if post.selftext else None`: empty text is
falsy; otherwise the slice keeps the first 500 characters. -/
def truncSelftext (s : String) : Field :=
  if s = "" then .missing else .str (String.mk (s.data.take 500))

/-- One produced post record: the flat mapping both fetchers build per
post. `search_query` is `missing` on hot-post records. -/
structure PostRecord where
  title : Field
  score : Field
  upvote_ratio : Field
  num_comments : Field
  author : Field
  subreddit : Field
  url : Field
  permalink : Field
  created_utc : Field
  is_self : Field
  selftext : Field
  flair : Field
  domain : Field
  search_query : Field
deriving DecidableEq

/-- The record `download_hot_posts` appends for one post of one forum. -/
def mkHotRecord (subreddit_name : String) (p : Post) : PostRecord where
  title := strF p.title
  score := intF p.score
  upvote_ratio := ratF p.upvote_ratio
  num_comments := intF p.num_comments
  author := authorF p.author
  subreddit := .str subreddit_name
  url := strF p.url
  permalink := strF p.permalink
  created_utc := ratF p.created_utc
  is_self := boolF p.is_self
  selftext := truncSelftext p.selftext
  flair := optStrF p.link_flair_text
  domain := strF p.domain
  search_query := .missing

/-- The record `search_posts` appends for one post of one forum: the
same fields plus `search_query` set to the caller's query. -/
def mkSearchRecord (query : String) (subreddit_name : String) (p : Post) : PostRecord :=
  { mkHotRecord subreddit_name p with search_query := .str query }

/-- The input-validation loop over forum names: the first name that is
falsy or not a string raises `ValueError`. -/
def firstBadName : List PyVal → Option String
  | [] => none
  | x :: xs =>
    if pyTruthy x = false ∨ x.isStr = false then
      some "Subreddit name must be a non-empty string"
    else firstBadName xs

/-- The validation block shared by both fetchers (lines 18-25 / 91-97):
checks the forum-name argument, then each name, then the limit; returns
the message of the `ValueError` it raises, or `none` when all pass. -/
def validate_hot (subreddit_names limit : PyVal) : Option String :=
  if pyTruthy subreddit_names = false ∨ subreddit_names.isList = false then
    some "Subreddit names must be a non-empty list"
  else
    match firstBadName subreddit_names.listItems with
    | some msg => some msg
    | none =>
      if limit.isInt = false ∨ limit.toInt ≤ 0 then
        some "Limit must be a positive integer"
      else none

/-- The validation block of `search_posts` (lines 88-97): the query
check precedes the shared checks. -/
def validate_search (query subreddit_names limit : PyVal) : Option String :=
  if pyTruthy query = false ∨ query.isStr = false then
    some "Query must be a non-empty string"
  else validate_hot subreddit_names limit

/-- One API interaction performed by a fetcher. -/
inductive ApiCall where
  | hot (subreddit_name : String) (limit : Int)
  | search (subreddit_name : String) (query : String) (limit : Int)
deriving DecidableEq

/-- What a fetcher call amounts to for its caller: an exception that
propagated, the caught-and-logged `False` sentinel, or a record list. -/
inductive FetchResult where
  | raised (msg : String)
  | sentinelFalse
  | posts (records : List PostRecord)
deriving DecidableEq

/-- A fetcher outcome together with the API calls it performed. -/
structure FetchOutcome where
  result : FetchResult
  calls : List ApiCall
deriving DecidableEq

/-- The fetch loop of `download_hot_posts` (lines 27-59): for each forum
in order, fetch its hot listing and append one record per post; an
exception from the client aborts the whole loop, discarding everything
accumulated so far. -/
def fetchHotAll (client : String → Int → Except String (List Post)) :
    List String → Int → Except String (List PostRecord) × List ApiCall
  | [], _ => (.ok [], [])
  | name :: rest, lim =>
    match client name lim with
    | .error e => (.error e, [.hot name lim])
    | .ok ps =>
      match fetchHotAll client rest lim with
      | (.error e, cs) => (.error e, .hot name lim :: cs)
      | (.ok rs, cs) => (.ok (ps.map (mkHotRecord name) ++ rs), .hot name lim :: cs)

/-- The fetch loop of `search_posts` (lines 99-132). -/
def fetchSearchAll (client : String → String → Int → Except String (List Post))
    (query : String) :
    List String → Int → Except String (List PostRecord) × List ApiCall
  | [], _ => (.ok [], [])
  | name :: rest, lim =>
    match client name query lim with
    | .error e => (.error e, [.search name query lim])
    | .ok ps =>
      match fetchSearchAll client query rest lim with
      | (.error e, cs) => (.error e, .search name query lim :: cs)
      | (.ok rs, cs) =>
        (.ok (ps.map (mkSearchRecord query name) ++ rs), .search name query lim :: cs)

/-- `download_hot_posts(reddit, subreddit_names, limit)`: validation
runs before the `try` block, so a validation `ValueError` propagates;
any exception inside the `try` is caught and converted to the `False`
sentinel. -/
def download_hot_posts (client : String → Int → Except String (List Post))
    (subreddit_names limit : PyVal) : FetchOutcome :=
  match validate_hot subreddit_names limit with
  | some msg => ⟨.raised msg, []⟩
  | none =>
    match fetchHotAll client (pyStrItems subreddit_names) limit.toInt with
    | (.error _, cs) => ⟨.sentinelFalse, cs⟩
    | (.ok rs, cs) => ⟨.posts rs, cs⟩

/-- `search_posts(reddit, query, subreddit_names, limit)`: same shape as
`download_hot_posts` with the query argument validated first and threaded
into every record. -/
def search_posts (client : String → String → Int → Except String (List Post))
    (query subreddit_names limit : PyVal) : FetchOutcome :=
  match validate_search query subreddit_names limit with
  | some msg => ⟨.raised msg, []⟩
  | none =>
    match fetchSearchAll client query.toStr (pyStrItems subreddit_names) limit.toInt with
    | (.error _, cs) => ⟨.sentinelFalse, cs⟩
    | (.ok rs, cs) => ⟨.posts rs, cs⟩

/-- Keep-first deduplication on the `permalink` column, with the set of
already-seen keys accumulated; `pandas.drop_duplicates` treats missing
values as equal, so `Field.missing` is one key like any other. -/
def dedupAux : List Field → List PostRecord → List PostRecord
  | _, [] => []
  | seen, r :: rs =>
    if r.permalink ∈ seen then dedupAux seen rs
    else r :: dedupAux (r.permalink :: seen) rs

/-- `df.drop_duplicates(subset="permalink")`: keep the first record for
each distinct `permalink` value. -/
def drop_duplicates (xs : List PostRecord) : List PostRecord :=
  dedupAux [] xs

/-- The value the persister receives in the driver: `None`, the integer
0 (what `False + False` evaluates to), or a list of records. -/
inductive SaveArg where
  | argNone
  | argIntZero
  | argList (xs : List PostRecord)
deriving DecidableEq

/-- What one `save_to_csv` call did: the value it returned, the table it
wrote to the file (or `none` when no write happened), and its console
output. -/
structure SaveOutcome where
  ret : Option (List PostRecord)
  written : Option (List PostRecord)
  logs : List String
deriving DecidableEq

/-- `save_to_csv(all_posts, filename)`: a falsy argument (`None`, `0`,
`[]`) short-circuits to a logged notice and a `None` return with no file
write; a non-empty list is de-duplicated on `permalink`, written out,
and returned. -/
def save_to_csv : SaveArg → SaveOutcome
  | .argList (x :: xs) =>
    let df := drop_duplicates (x :: xs)
    ⟨some df, some df,
      ["Removed " ++ toString ((x :: xs).length - df.length) ++ " duplicate posts.",
       "Saving " ++ toString df.length ++ " cleaned posts.",
       "Data saved successfully."]⟩
  | _ => ⟨none, none, ["No posts to save."]⟩

/-- A raw fetcher return value as the driver sees it: the `False`
sentinel or a list of records. -/
inductive FetchRet where
  | vFalse
  | vList (xs : List PostRecord)
deriving DecidableEq

/-- Python `+` applied to the two raw fetch returns (line 212):
`list + list` concatenates, `False + False` is the integer `0` because
`bool` is an `int` subclass, and the mixed cases raise `TypeError`. -/
def pyAdd : FetchRet → FetchRet → Except String SaveArg
  | .vList xs, .vList ys => .ok (.argList (xs ++ ys))
  | .vFalse, .vFalse => .ok .argIntZero
  | .vList _, .vFalse => .error "TypeError: can only concatenate list to list"
  | .vFalse, .vList _ => .error "TypeError: unsupported operand types for +"

/-- The driver tail (lines 212-215): concatenate the raw fetch returns
and pass the result to the persister; an exception from `+` is unhandled
and terminates the run. -/
def driverCombineAndSave (hot_posts search_results : FetchRet) :
    Except String SaveOutcome :=
  match pyAdd hot_posts search_results with
  | .error e => .error e
  | .ok a => .ok (save_to_csv a)

/-- The invalid inputs of `download_hot_posts` as the spec enumerates
them: empty or non-list forum-name argument, a falsy or non-string forum
name, or a non-integer or non-positive limit. -/
def invalidHotInput (subreddit_names limit : PyVal) : Prop :=
  pyTruthy subreddit_names = false ∨ subreddit_names.isList = false ∨
    (∃ x ∈ subreddit_names.listItems, pyTruthy x = false ∨ x.isStr = false) ∨
    limit.isInt = false ∨ limit.toInt ≤ 0

/-- The invalid inputs of `search_posts`: a falsy or non-string query,
or any condition of `invalidHotInput`. -/
def invalidSearchInput (query subreddit_names limit : PyVal) : Prop :=
  pyTruthy query = false ∨ query.isStr = false ∨ invalidHotInput subreddit_names limit

/-- The record list `download_hot_posts` produces when the client yields
`ps nm` for forum `nm`: forum-iteration order, then fetch order. -/
def hotRecordsOf (ps : String → List Post) : List String → List PostRecord
  | [] => []
  | nm :: rest => (ps nm).map (mkHotRecord nm) ++ hotRecordsOf ps rest

/-- The record list `search_posts` produces when the client yields
`ps nm` for forum `nm`. -/
def searchRecordsOf (query : String) (ps : String → List Post) :
    List String → List PostRecord
  | [] => []
  | nm :: rest => (ps nm).map (mkSearchRecord query nm) ++ searchRecordsOf query ps rest

/-- A sample fetched post with every attribute truthy. -/
def samplePost : Post where
  title := "hello"
  score := 5
  upvote_ratio := (9 : Rat) / 10
  num_comments := 3
  author := some "alice"
  subreddit := "fromobject"
  url := "http://u"
  permalink := "p1"
  created_utc := 1700000000
  is_self := true
  selftext := "body text"
  link_flair_text := some "flair"
  domain := "self.ml"

/-- A sample fetched post with every attribute falsy. -/
def zeroPost : Post where
  title := ""
  score := 0
  upvote_ratio := 0
  num_comments := 0
  author := none
  subreddit := "fromobject"
  url := ""
  permalink := ""
  created_utc := 0
  is_self := false
  selftext := ""
  link_flair_text := none
  domain := ""

/-- A client whose every call raises an API error. -/
def errClient : String → Int → Except String (List Post) :=
  fun _ _ => .error "boom"

/-- A hot-listing client that yields one sample post per forum. -/
def oneClient : String → Int → Except String (List Post) :=
  fun _ _ => .ok [samplePost]

/-- A search client that yields one sample post per forum. -/
def oneSearchClient : String → String → Int → Except String (List Post) :=
  fun _ _ _ => .ok [samplePost]

theorem firstBadName_eq_none (l : List String) (h : ∀ s ∈ l, s ≠ "") :
    firstBadName (l.map PyVal.vStr) = none := by
  induction l with
  | nil => rfl
  | cons s rest ih =>
    have hs : s ≠ "" := h s (by simp)
    have hrest := ih fun x hx => h x (by simp [hx])
    simp [firstBadName, pyTruthy, PyVal.isStr, hs, hrest]

theorem validate_hot_ok (l : List String) (hne : l ≠ []) (hs : ∀ s ∈ l, s ≠ "")
    (n : Int) (hn : 0 < n) :
    validate_hot (PyVal.vList (l.map PyVal.vStr)) (PyVal.vInt n) = none := by
  unfold validate_hot
  have h1 : pyTruthy (PyVal.vList (l.map PyVal.vStr)) = true := by
    simp [pyTruthy, List.isEmpty_iff, hne]
  have h2 : firstBadName (PyVal.vList (l.map PyVal.vStr)).listItems = none := by
    simpa [PyVal.listItems] using firstBadName_eq_none l hs
  simp [h1, h2, PyVal.isList, PyVal.isInt, PyVal.toInt, not_le.mpr hn]

theorem validate_search_ok (q : String) (hq : q ≠ "") (l : List String) (hne : l ≠ [])
    (hs : ∀ s ∈ l, s ≠ "") (n : Int) (hn : 0 < n) :
    validate_search (PyVal.vStr q) (PyVal.vList (l.map PyVal.vStr)) (PyVal.vInt n) = none := by
  unfold validate_search
  simp [pyTruthy, PyVal.isStr, hq, validate_hot_ok l hne hs n hn]

theorem firstBadName_of_bad (l : List PyVal)
    (h : ∃ x ∈ l, pyTruthy x = false ∨ x.isStr = false) :
    ∃ msg, firstBadName l = some msg := by
  induction l with
  | nil => simp at h
  | cons x rest ih =>
    by_cases hx : pyTruthy x = false ∨ x.isStr = false
    · exact ⟨"Subreddit name must be a non-empty string", by simp [firstBadName, hx]⟩
    · obtain ⟨y, hy, hby⟩ := h
      rcases List.mem_cons.mp hy with rfl | hy2
      · exact absurd hby hx
      · obtain ⟨m, hm⟩ := ih ⟨y, hy2, hby⟩
        exact ⟨m, by simp [firstBadName, hx, hm]⟩

theorem validate_hot_invalid (names limit : PyVal) (h : invalidHotInput names limit) :
    ∃ msg, validate_hot names limit = some msg := by
  unfold validate_hot
  by_cases h1 : pyTruthy names = false ∨ names.isList = false
  · exact ⟨"Subreddit names must be a non-empty list", by simp [h1]⟩
  · rcases h with ha | hb | hc | hd | he
    · exact absurd (Or.inl ha) h1
    · exact absurd (Or.inr hb) h1
    · obtain ⟨m, hm⟩ := firstBadName_of_bad _ hc
      exact ⟨m, by simp [h1, hm]⟩
    · cases hfb : firstBadName names.listItems with
      | some m => exact ⟨m, by simp [h1, hfb]⟩
      | none => exact ⟨"Limit must be a positive integer", by simp [h1, hfb, hd]⟩
    · cases hfb : firstBadName names.listItems with
      | some m => exact ⟨m, by simp [h1, hfb]⟩
      | none => exact ⟨"Limit must be a positive integer", by simp [h1, hfb, he]⟩

theorem validate_search_invalid (query names limit : PyVal)
    (h : invalidSearchInput query names limit) :
    ∃ msg, validate_search query names limit = some msg := by
  unfold validate_search
  by_cases h1 : pyTruthy query = false ∨ query.isStr = false
  · exact ⟨"Query must be a non-empty string", by simp [h1]⟩
  · rcases h with ha | hb | hc
    · exact absurd (Or.inl ha) h1
    · exact absurd (Or.inr hb) h1
    · obtain ⟨m, hm⟩ := validate_hot_invalid names limit hc
      exact ⟨m, by simp [h1, hm]⟩

theorem fetchHotAll_ok (client : String → Int → Except String (List Post))
    (ps : String → List Post) (n : Int) (l : List String)
    (hc : ∀ nm ∈ l, client nm n = Except.ok (ps nm)) :
    fetchHotAll client l n =
      (.ok (hotRecordsOf ps l), l.map fun nm => ApiCall.hot nm n) := by
  induction l with
  | nil => rfl
  | cons nm rest ih =>
    have h1 := hc nm (by simp)
    have h2 := ih fun x hx => hc x (by simp [hx])
    simp [fetchHotAll, h1, h2, hotRecordsOf]

theorem fetchSearchAll_ok (client : String → String → Int → Except String (List Post))
    (q : String) (ps : String → List Post) (n : Int) (l : List String)
    (hc : ∀ nm ∈ l, client nm q n = Except.ok (ps nm)) :
    fetchSearchAll client q l n =
      (.ok (searchRecordsOf q ps l), l.map fun nm => ApiCall.search nm q n) := by
  induction l with
  | nil => rfl
  | cons nm rest ih =>
    have h1 := hc nm (by simp)
    have h2 := ih fun x hx => hc x (by simp [hx])
    simp [fetchSearchAll, h1, h2, searchRecordsOf]

theorem hotRecordsOf_length_le (ps : String → List Post) (k : Nat)
    (hk : ∀ nm, (ps nm).length ≤ k) (l : List String) :
    (hotRecordsOf ps l).length ≤ k * l.length := by
  induction l with
  | nil => simp [hotRecordsOf]
  | cons nm rest ih =>
    simp only [hotRecordsOf, List.length_append, List.length_map, List.length_cons]
    calc (ps nm).length + (hotRecordsOf ps rest).length
        ≤ k + k * rest.length := Nat.add_le_add (hk nm) ih
      _ = k * (rest.length + 1) := by ring

theorem searchRecordsOf_length_le (q : String) (ps : String → List Post) (k : Nat)
    (hk : ∀ nm, (ps nm).length ≤ k) (l : List String) :
    (searchRecordsOf q ps l).length ≤ k * l.length := by
  induction l with
  | nil => simp [searchRecordsOf]
  | cons nm rest ih =>
    simp only [searchRecordsOf, List.length_append, List.length_map, List.length_cons]
    calc (ps nm).length + (searchRecordsOf q ps rest).length
        ≤ k + k * rest.length := Nat.add_le_add (hk nm) ih
      _ = k * (rest.length + 1) := by ring

theorem mem_fetchHotAll_ok (client : String → Int → Except String (List Post))
    (l : List String) (n : Int) (rs : List PostRecord) (cs : List ApiCall)
    (hfetch : fetchHotAll client l n = (.ok rs, cs)) :
    ∀ r ∈ rs, ∃ nm ∈ l, ∃ p, r = mkHotRecord nm p := by
  induction l generalizing rs cs with
  | nil =>
    simp only [fetchHotAll, Prod.mk.injEq] at hfetch
    obtain ⟨h1, _⟩ := hfetch
    cases h1
    simp
  | cons nm rest ih =>
    cases hcl : client nm n with
    | error e => simp [fetchHotAll, hcl] at hfetch
    | ok ps =>
      cases hr : fetchHotAll client rest n with
      | mk r' cs' =>
        cases r' with
        | error e => simp [fetchHotAll, hcl, hr] at hfetch
        | ok rs' =>
          simp only [fetchHotAll, hcl, hr, Prod.mk.injEq, Except.ok.injEq] at hfetch
          obtain ⟨h1, -⟩ := hfetch
          subst h1
          intro r hrm
          rcases List.mem_append.mp hrm with hm | hm
          · obtain ⟨p, hp, rfl⟩ := List.mem_map.mp hm
            exact ⟨nm, by simp, p, rfl⟩
          · obtain ⟨nm', hnm', p, hp⟩ := ih rs' cs' hr r hm
            exact ⟨nm', by simp [hnm'], p, hp⟩

theorem mem_fetchSearchAll_ok (client : String → String → Int → Except String (List Post))
    (q : String) (l : List String) (n : Int) (rs : List PostRecord) (cs : List ApiCall)
    (hfetch : fetchSearchAll client q l n = (.ok rs, cs)) :
    ∀ r ∈ rs, ∃ nm ∈ l, ∃ p, r = mkSearchRecord q nm p := by
  induction l generalizing rs cs with
  | nil =>
    simp only [fetchSearchAll, Prod.mk.injEq] at hfetch
    obtain ⟨h1, _⟩ := hfetch
    cases h1
    simp
  | cons nm rest ih =>
    cases hcl : client nm q n with
    | error e => simp [fetchSearchAll, hcl] at hfetch
    | ok ps =>
      cases hr : fetchSearchAll client q rest n with
      | mk r' cs' =>
        cases r' with
        | error e => simp [fetchSearchAll, hcl, hr] at hfetch
        | ok rs' =>
          simp only [fetchSearchAll, hcl, hr, Prod.mk.injEq, Except.ok.injEq] at hfetch
          obtain ⟨h1, -⟩ := hfetch
          subst h1
          intro r hrm
          rcases List.mem_append.mp hrm with hm | hm
          · obtain ⟨p, hp, rfl⟩ := List.mem_map.mp hm
            exact ⟨nm, by simp, p, rfl⟩
          · obtain ⟨nm', hnm', p, hp⟩ := ih rs' cs' hr r hm
            exact ⟨nm', by simp [hnm'], p, hp⟩

theorem download_posts_inv (client : String → Int → Except String (List Post))
    (names limit : PyVal) (rs : List PostRecord)
    (h : (download_hot_posts client names limit).result = .posts rs) :
    ∃ cs, fetchHotAll client (pyStrItems names) limit.toInt = (.ok rs, cs) := by
  unfold download_hot_posts at h
  cases hv : validate_hot names limit with
  | some m => rw [hv] at h; simp at h
  | none =>
    rw [hv] at h
    cases hf : fetchHotAll client (pyStrItems names) limit.toInt with
    | mk r cs =>
      cases r with
      | error e => rw [hf] at h; simp at h
      | ok rs' =>
        rw [hf] at h
        simp only [FetchResult.posts.injEq] at h
        subst h
        exact ⟨cs, rfl⟩

theorem search_posts_inv (client : String → String → Int → Except String (List Post))
    (query names limit : PyVal) (rs : List PostRecord)
    (h : (search_posts client query names limit).result = .posts rs) :
    ∃ cs, fetchSearchAll client query.toStr (pyStrItems names) limit.toInt = (.ok rs, cs) := by
  unfold search_posts at h
  cases hv : validate_search query names limit with
  | some m => rw [hv] at h; simp at h
  | none =>
    rw [hv] at h
    cases hf : fetchSearchAll client query.toStr (pyStrItems names) limit.toInt with
    | mk r cs =>
      cases r with
      | error e => rw [hf] at h; simp at h
      | ok rs' =>
        rw [hf] at h
        simp only [FetchResult.posts.injEq] at h
        subst h
        exact ⟨cs, rfl⟩

theorem dedupAux_sublist (seen : List Field) (xs : List PostRecord) :
    (dedupAux seen xs).Sublist xs := by
  induction xs generalizing seen with
  | nil => simp [dedupAux]
  | cons r rs ih =>
    by_cases hr : r.permalink ∈ seen
    · simp only [dedupAux, if_pos hr]
      exact (ih seen).trans (List.sublist_cons_self r rs)
    · simp only [dedupAux, if_neg hr]
      exact (ih _).cons₂ r

theorem mem_dedupAux_not_seen (seen : List Field) (xs : List PostRecord)
    (r : PostRecord) (hr : r ∈ dedupAux seen xs) : r.permalink ∉ seen := by
  induction xs generalizing seen with
  | nil => simp [dedupAux] at hr
  | cons x rs ih =>
    by_cases hx : x.permalink ∈ seen
    · exact ih seen (by simpa only [dedupAux, if_pos hx] using hr)
    · simp only [dedupAux, if_neg hx] at hr
      rcases List.mem_cons.mp hr with rfl | hr2
      · exact hx
      · intro hc
        exact ih _ hr2 (List.mem_cons_of_mem _ hc)

theorem nodup_keys_dedupAux (seen : List Field) (xs : List PostRecord) :
    ((dedupAux seen xs).map fun r => r.permalink).Nodup := by
  induction xs generalizing seen with
  | nil => simp [dedupAux]
  | cons x rs ih =>
    by_cases hx : x.permalink ∈ seen
    · simpa only [dedupAux, if_pos hx] using ih seen
    · simp only [dedupAux, if_neg hx, List.map_cons, List.nodup_cons]
      refine ⟨fun hmem => ?_, ih _⟩
      obtain ⟨r, hr, hkey⟩ := List.mem_map.mp hmem
      exact mem_dedupAux_not_seen _ _ _ hr (hkey ▸ List.mem_cons_self _ _)

theorem dedupAux_eq_self (seen : List Field) (ys : List PostRecord)
    (h1 : ∀ r ∈ ys, r.permalink ∉ seen)
    (h2 : (ys.map fun r => r.permalink).Nodup) : dedupAux seen ys = ys := by
  induction ys generalizing seen with
  | nil => rfl
  | cons y ys ih =>
    have hy : y.permalink ∉ seen := h1 y (List.mem_cons_self _ _)
    simp only [List.map_cons, List.nodup_cons] at h2
    simp only [dedupAux, if_neg hy]
    congr 1
    apply ih
    · intro r hr
      simp only [List.mem_cons, not_or]
      refine ⟨fun heq => h2.1 ?_, h1 r (List.mem_cons_of_mem _ hr)⟩
      exact heq ▸ List.mem_map_of_mem _ hr
    · exact h2.2

theorem drop_duplicates_idem (xs : List PostRecord) :
    drop_duplicates (drop_duplicates xs) = drop_duplicates xs :=
  dedupAux_eq_self [] _ (fun _ _ => by simp) (nodup_keys_dedupAux [] xs)

theorem filter_dedupAux (k : Field) (seen : List Field) (xs : List PostRecord) :
    (dedupAux seen xs).filter (fun r => r.permalink == k) =
      if k ∈ seen then [] else (xs.filter (fun r => r.permalink == k)).take 1 := by
  induction xs generalizing seen with
  | nil => simp [dedupAux]
  | cons x rs ih =>
    by_cases hx : x.permalink ∈ seen
    · simp only [dedupAux, if_pos hx, ih]
      by_cases hk : k ∈ seen
      · simp [hk]
      · have hne : x.permalink ≠ k := fun he => hk (he ▸ hx)
        simp [hk, List.filter_cons, hne]
    · simp only [dedupAux, if_neg hx]
      by_cases hxk : x.permalink = k
      · subst hxk
        have h2 := ih (x.permalink :: seen)
        simp only [List.mem_cons, true_or, if_true] at h2
        simp [List.filter_cons, h2, hx]
      · have hkx : ¬ k = x.permalink := fun h => hxk h.symm
        have h2 := ih (x.permalink :: seen)
        by_cases hk : k ∈ seen
        · simp only [List.mem_cons, hkx, false_or, hk, if_true] at h2
          simp [List.filter_cons, hxk, h2, hk]
        · simp only [List.mem_cons, hkx, false_or, hk, if_false] at h2
          simp [List.filter_cons, hxk, h2, hk]

/-- Claim C1 counterexample: on the concrete invalid input of an empty
forum list, `download_hot_posts` lets the validation error propagate
(`raised`), and does not return the false sentinel; likewise
`search_posts` on an empty query. -/
theorem C1_counterexample :
    (download_hot_posts errClient (PyVal.vList []) (PyVal.vInt 10)).result
        = FetchResult.raised "Subreddit names must be a non-empty list"
      ∧ (download_hot_posts errClient (PyVal.vList []) (PyVal.vInt 10)).result
        ≠ FetchResult.sentinelFalse
      ∧ (search_posts oneSearchClient (PyVal.vStr "")
            (PyVal.vList [PyVal.vStr "ml"]) (PyVal.vInt 10)).result
        = FetchResult.raised "Query must be a non-empty string"
      ∧ (search_posts oneSearchClient (PyVal.vStr "")
            (PyVal.vList [PyVal.vStr "ml"]) (PyVal.vInt 10)).result
        ≠ FetchResult.sentinelFalse :=
  ⟨rfl, by decide, rfl, by decide⟩

/-- Claim C1 (amended): for every invalid input the validation error is
raised before the `try` block and propagates to the caller, in both
fetchers; only exceptions raised during the fetch loop itself are caught
and converted to the false-sentinel return. -/
theorem C1_validation_propagates_fetch_errors_sentinel :
    (∀ (client : String → Int → Except String (List Post)) (names limit : PyVal),
        invalidHotInput names limit →
        ∃ msg, (download_hot_posts client names limit).result = .raised msg) ∧
    (∀ (client : String → String → Int → Except String (List Post))
        (query names limit : PyVal), invalidSearchInput query names limit →
        ∃ msg, (search_posts client query names limit).result = .raised msg) ∧
    (∀ (client : String → Int → Except String (List Post)) (names limit : PyVal)
        (e : String) (cs : List ApiCall), validate_hot names limit = none →
        fetchHotAll client (pyStrItems names) limit.toInt = (.error e, cs) →
        (download_hot_posts client names limit).result = .sentinelFalse) ∧
    (∀ (client : String → String → Int → Except String (List Post))
        (query names limit : PyVal) (e : String) (cs : List ApiCall),
        validate_search query names limit = none →
        fetchSearchAll client query.toStr (pyStrItems names) limit.toInt = (.error e, cs) →
        (search_posts client query names limit).result = .sentinelFalse) := by
  refine ⟨?_, ?_, ?_, ?_⟩
  · intro client names limit h
    obtain ⟨msg, hm⟩ := validate_hot_invalid names limit h
    exact ⟨msg, by simp [download_hot_posts, hm]⟩
  · intro client query names limit h
    obtain ⟨msg, hm⟩ := validate_search_invalid query names limit h
    exact ⟨msg, by simp [search_posts, hm]⟩
  · intro client names limit e cs hv hf
    simp [download_hot_posts, hv, hf]
  · intro client query names limit e cs hv hf
    simp [search_posts, hv, hf]

/-- Witness for C1: the empty forum list makes both fetchers raise, and
a failing client on valid input yields the sentinel. -/
theorem C1_validation_propagates_witness :
    (∃ msg, (download_hot_posts errClient (PyVal.vList []) (PyVal.vInt 10)).result
        = FetchResult.raised msg)
      ∧ (download_hot_posts errClient (PyVal.vList [PyVal.vStr "ml"])
          (PyVal.vInt 10)).result = FetchResult.sentinelFalse := by
  constructor
  · exact C1_validation_propagates_fetch_errors_sentinel.1 errClient
      (PyVal.vList []) (PyVal.vInt 10) (Or.inl rfl)
  · exact C1_validation_propagates_fetch_errors_sentinel.2.2.1 errClient
      (PyVal.vList [PyVal.vStr "ml"]) (PyVal.vInt 10) "boom"
      [ApiCall.hot "ml" 10] rfl rfl

/-- Claim C2: for every invalid input (empty or non-list forum-name
argument, falsy or non-string forum name, non-integer or non-positive
limit, and for search also a falsy or non-string query), each fetcher
raises before performing any API call: the result is `raised` and the
list of performed calls is empty. -/
theorem C2_rejects_before_network :
    (∀ (client : String → Int → Except String (List Post)) (names limit : PyVal),
        invalidHotInput names limit →
        (∃ msg, (download_hot_posts client names limit).result = .raised msg) ∧
          (download_hot_posts client names limit).calls = []) ∧
    (∀ (client : String → String → Int → Except String (List Post))
        (query names limit : PyVal), invalidSearchInput query names limit →
        (∃ msg, (search_posts client query names limit).result = .raised msg) ∧
          (search_posts client query names limit).calls = []) := by
  constructor
  · intro client names limit h
    obtain ⟨msg, hm⟩ := validate_hot_invalid names limit h
    exact ⟨⟨msg, by simp [download_hot_posts, hm]⟩, by simp [download_hot_posts, hm]⟩
  · intro client query names limit h
    obtain ⟨msg, hm⟩ := validate_search_invalid query names limit h
    exact ⟨⟨msg, by simp [search_posts, hm]⟩, by simp [search_posts, hm]⟩

/-- Witness for C2: concrete rejections with no API call, one per
validation condition named by the claim. -/
theorem C2_rejects_before_network_witness :
    ((∃ msg, (download_hot_posts errClient (PyVal.vList []) (PyVal.vInt 10)).result
        = FetchResult.raised msg)
      ∧ (download_hot_posts errClient (PyVal.vList []) (PyVal.vInt 10)).calls = [])
    ∧ ((∃ msg, (download_hot_posts oneClient (PyVal.vList [PyVal.vStr "ml"])
          (PyVal.vInt 0)).result = FetchResult.raised msg)
      ∧ (download_hot_posts oneClient (PyVal.vList [PyVal.vStr "ml"])
          (PyVal.vInt 0)).calls = [])
    ∧ ((∃ msg, (search_posts oneSearchClient PyVal.vNone
          (PyVal.vList [PyVal.vStr "ml"]) (PyVal.vInt 10)).result
        = FetchResult.raised msg)
      ∧ (search_posts oneSearchClient PyVal.vNone
          (PyVal.vList [PyVal.vStr "ml"]) (PyVal.vInt 10)).calls = []) :=
  ⟨C2_rejects_before_network.1 errClient (PyVal.vList []) (PyVal.vInt 10) (Or.inl rfl),
   C2_rejects_before_network.1 oneClient (PyVal.vList [PyVal.vStr "ml"])
     (PyVal.vInt 0) (Or.inr (Or.inr (Or.inr (Or.inr (by simp [PyVal.toInt]))))),
   C2_rejects_before_network.2 oneSearchClient PyVal.vNone
     (PyVal.vList [PyVal.vStr "ml"]) (PyVal.vInt 10) (Or.inl rfl)⟩

/-- Claim C3 counterexample: when both fetches return the false
sentinel, the concatenation does not fail: `False + False` evaluates to
the integer `0`, the persister sees a falsy argument, logs a notice and
returns `None`, and the run completes without writing a file. -/
theorem C3_counterexample :
    driverCombineAndSave FetchRet.vFalse FetchRet.vFalse
      = Except.ok ⟨none, none, ["No posts to save."]⟩ := rfl

/-- Claim C3 (amended): if exactly one of the two fetches returns the
false sentinel, the concatenation raises a `TypeError` that terminates
the run unhandled; if both return it, `False + False` evaluates to the
integer `0`, which the persister treats as empty input, and the run ends
gracefully with no file written. -/
theorem C3_one_sided_failure_crashes :
    (∀ xs : List PostRecord,
        driverCombineAndSave (FetchRet.vList xs) FetchRet.vFalse
          = Except.error "TypeError: can only concatenate list to list") ∧
    (∀ ys : List PostRecord,
        driverCombineAndSave FetchRet.vFalse (FetchRet.vList ys)
          = Except.error "TypeError: unsupported operand types for +") ∧
    driverCombineAndSave FetchRet.vFalse FetchRet.vFalse
      = Except.ok ⟨none, none, ["No posts to save."]⟩ :=
  ⟨fun _ => rfl, fun _ => rfl, rfl⟩

/-- Claim C4: the persister is idempotent with respect to deduplication:
for a non-empty input list it returns a de-duplicated table, and running
the persister on that table returns it unchanged, hence with the same
row count; duplicates are keyed on `permalink` and the first occurrence
is kept (the table is a subsequence of the input with pairwise-distinct
permalink keys, and for each key the surviving row is the first input
row carrying it). -/
theorem C4_persister_dedup_idempotent (xs : List PostRecord) (hne : xs ≠ []) :
    ∃ rows, (save_to_csv (SaveArg.argList xs)).ret = some rows ∧
      (save_to_csv (SaveArg.argList rows)).ret = some rows ∧
      rows.length = ((save_to_csv (SaveArg.argList xs)).ret.getD []).length ∧
      rows.Sublist xs ∧
      ((rows.map fun r => r.permalink).Nodup) ∧
      ∀ k, rows.filter (fun r => r.permalink == k)
        = (xs.filter (fun r => r.permalink == k)).take 1 := by
  obtain ⟨x, xs', rfl⟩ := List.exists_cons_of_ne_nil hne
  have hcons : drop_duplicates (x :: xs') = x :: dedupAux [x.permalink] xs' := by
    simp [drop_duplicates, dedupAux]
  refine ⟨drop_duplicates (x :: xs'), rfl, ?_, rfl, dedupAux_sublist [] _,
    nodup_keys_dedupAux [] _, ?_⟩
  · rw [hcons]
    show some (drop_duplicates (x :: dedupAux [x.permalink] xs'))
      = some (x :: dedupAux [x.permalink] xs')
    rw [← hcons, drop_duplicates_idem]
  · intro k
    simpa using filter_dedupAux k [] (x :: xs')

/-- Witness for C4 at a two-element input sharing one permalink. -/
theorem C4_persister_dedup_idempotent_witness :
    ∃ rows, (save_to_csv (SaveArg.argList
        [mkHotRecord "ml" samplePost, mkSearchRecord "gpt" "ml" samplePost])).ret
        = some rows ∧
      (save_to_csv (SaveArg.argList rows)).ret = some rows ∧
      rows.length = ((save_to_csv (SaveArg.argList
        [mkHotRecord "ml" samplePost, mkSearchRecord "gpt" "ml" samplePost])).ret.getD []).length ∧
      rows.Sublist [mkHotRecord "ml" samplePost, mkSearchRecord "gpt" "ml" samplePost] ∧
      ((rows.map fun r => r.permalink).Nodup) ∧
      ∀ k, rows.filter (fun r => r.permalink == k)
        = ([mkHotRecord "ml" samplePost,
            mkSearchRecord "gpt" "ml" samplePost].filter
              (fun r => r.permalink == k)).take 1 :=
  C4_persister_dedup_idempotent
    [mkHotRecord "ml" samplePost, mkSearchRecord "gpt" "ml" samplePost]
    (List.cons_ne_nil _ _)

/-- Claim C8: an empty or absent persister input skips all processing —
no file write happens, a notice is logged, and `None` is returned; a
non-empty list input writes the de-duplicated table and returns it. -/
theorem C8_empty_input_no_write :
    save_to_csv SaveArg.argNone = ⟨none, none, ["No posts to save."]⟩ ∧
    save_to_csv (SaveArg.argList []) = ⟨none, none, ["No posts to save."]⟩ ∧
    (∀ (x : PostRecord) (xs : List PostRecord),
      (save_to_csv (SaveArg.argList (x :: xs))).written
          = some (drop_duplicates (x :: xs)) ∧
        (save_to_csv (SaveArg.argList (x :: xs))).ret
          = some (drop_duplicates (x :: xs))) :=
  ⟨rfl, rfl, fun _ _ => ⟨rfl, rfl⟩⟩

/-- Claim C10: in the persister all records whose `permalink` is the
missing marker share one deduplication key: among the persisted rows,
the rows with a missing permalink are exactly the first input record
with a missing permalink, however different the rest were. -/
theorem C10_missing_permalinks_share_key (x : PostRecord) (xs : List PostRecord) :
    ∃ rows, (save_to_csv (SaveArg.argList (x :: xs))).ret = some rows ∧
      rows.filter (fun r => r.permalink == Field.missing)
        = ((x :: xs).filter (fun r => r.permalink == Field.missing)).take 1 :=
  ⟨drop_duplicates (x :: xs), rfl, by
    simpa using filter_dedupAux Field.missing [] (x :: xs)⟩

/-- Claim C7: the `selftext` field of every produced record, when not
missing, is a string of at most 500 characters that is a prefix of the
post's original selftext; the search fetcher builds the field the same
way. -/
theorem C7_selftext_truncation (nm q : String) (p : Post) :
    ((mkHotRecord nm p).selftext = Field.missing ∨
      ∃ s : String, (mkHotRecord nm p).selftext = Field.str s ∧
        s.length ≤ 500 ∧ s.data <+: p.selftext.data) ∧
    (mkSearchRecord q nm p).selftext = (mkHotRecord nm p).selftext := by
  refine ⟨?_, rfl⟩
  by_cases h : p.selftext = ""
  · left
    simp [mkHotRecord, truncSelftext, h]
  · right
    refine ⟨String.mk (p.selftext.data.take 500),
      by simp [mkHotRecord, truncSelftext, h], ?_, ?_⟩
    · show (p.selftext.data.take 500).length ≤ 500
      simp [List.length_take]
    · exact List.take_prefix 500 p.selftext.data

/-- Claim C9: every falsy source attribute — zero score, zero ratio,
zero comment count, false `is_self`, empty strings, absent author or
flair — collapses to the single missing marker in the produced record,
in both fetchers, so a legitimately zero value is indistinguishable from
an absent one. -/
theorem C9_falsy_collapses_to_missing (nm q : String) (p : Post) :
    (p.title = "" → (mkHotRecord nm p).title = Field.missing) ∧
    (p.score = 0 → (mkHotRecord nm p).score = Field.missing) ∧
    (p.upvote_ratio = 0 → (mkHotRecord nm p).upvote_ratio = Field.missing) ∧
    (p.num_comments = 0 → (mkHotRecord nm p).num_comments = Field.missing) ∧
    (p.author = none → (mkHotRecord nm p).author = Field.missing) ∧
    (p.url = "" → (mkHotRecord nm p).url = Field.missing) ∧
    (p.permalink = "" → (mkHotRecord nm p).permalink = Field.missing) ∧
    (p.created_utc = 0 → (mkHotRecord nm p).created_utc = Field.missing) ∧
    (p.is_self = false → (mkHotRecord nm p).is_self = Field.missing) ∧
    (p.selftext = "" → (mkHotRecord nm p).selftext = Field.missing) ∧
    ((p.link_flair_text = none ∨ p.link_flair_text = some "") →
      (mkHotRecord nm p).flair = Field.missing) ∧
    (p.domain = "" → (mkHotRecord nm p).domain = Field.missing) ∧
    (p.score = 0 → (mkSearchRecord q nm p).score = Field.missing) ∧
    (p.upvote_ratio = 0 → (mkSearchRecord q nm p).upvote_ratio = Field.missing) ∧
    (p.num_comments = 0 → (mkSearchRecord q nm p).num_comments = Field.missing) ∧
    (p.is_self = false → (mkSearchRecord q nm p).is_self = Field.missing) ∧
    (p.title = "" → (mkSearchRecord q nm p).title = Field.missing) ∧
    (p.selftext = "" → (mkSearchRecord q nm p).selftext = Field.missing) :=
  ⟨fun h => by simp [mkHotRecord, strF, h],
   fun h => by simp [mkHotRecord, intF, h],
   fun h => by simp [mkHotRecord, ratF, h],
   fun h => by simp [mkHotRecord, intF, h],
   fun h => by simp [mkHotRecord, authorF, h],
   fun h => by simp [mkHotRecord, strF, h],
   fun h => by simp [mkHotRecord, strF, h],
   fun h => by simp [mkHotRecord, ratF, h],
   fun h => by simp [mkHotRecord, boolF, h],
   fun h => by simp [mkHotRecord, truncSelftext, h],
   fun h => by rcases h with h | h <;> simp [mkHotRecord, optStrF, strF, h],
   fun h => by simp [mkHotRecord, strF, h],
   fun h => by simp [mkSearchRecord, mkHotRecord, intF, h],
   fun h => by simp [mkSearchRecord, mkHotRecord, ratF, h],
   fun h => by simp [mkSearchRecord, mkHotRecord, intF, h],
   fun h => by simp [mkSearchRecord, mkHotRecord, boolF, h],
   fun h => by simp [mkSearchRecord, mkHotRecord, strF, h],
   fun h => by simp [mkSearchRecord, mkHotRecord, truncSelftext, h]⟩

/-- Witness for C9 at a post whose every attribute is falsy. -/
theorem C9_falsy_collapses_witness :
    (mkHotRecord "ml" zeroPost).score = Field.missing ∧
    (mkHotRecord "ml" zeroPost).upvote_ratio = Field.missing ∧
    (mkHotRecord "ml" zeroPost).num_comments = Field.missing ∧
    (mkHotRecord "ml" zeroPost).is_self = Field.missing ∧
    (mkHotRecord "ml" zeroPost).title = Field.missing ∧
    (mkSearchRecord "gpt" "ml" zeroPost).score = Field.missing := by
  have h := C9_falsy_collapses_to_missing "ml" "gpt" zeroPost
  exact ⟨h.2.1 rfl, h.2.2.1 rfl, h.2.2.2.1 rfl, h.2.2.2.2.2.2.2.2.1 rfl,
    h.1 rfl, h.2.2.2.2.2.2.2.2.2.2.2.2.1 rfl⟩

/-- Claim C5: for every valid non-empty forum list and positive integer
limit, when every client call succeeds and yields at most `limit` posts,
each fetcher returns exactly the per-forum record lists concatenated in
forum-iteration order then fetch order, of length at most
`limit × number_of_forums`. -/
theorem C5_length_bound_and_order
    (client : String → Int → Except String (List Post))
    (sclient : String → String → Int → Except String (List Post))
    (l : List String) (hne : l ≠ []) (hstr : ∀ s ∈ l, s ≠ "")
    (n : Int) (hn : 0 < n) (q : String) (hq : q ≠ "")
    (ps qs : String → List Post)
    (hc : ∀ nm ∈ l, client nm n = Except.ok (ps nm))
    (hcs : ∀ nm ∈ l, sclient nm q n = Except.ok (qs nm))
    (hlen : ∀ nm, (ps nm).length ≤ n.toNat)
    (hlens : ∀ nm, (qs nm).length ≤ n.toNat) :
    (download_hot_posts client (PyVal.vList (l.map PyVal.vStr)) (PyVal.vInt n)).result
        = FetchResult.posts (hotRecordsOf ps l) ∧
      (hotRecordsOf ps l).length ≤ n.toNat * l.length ∧
      (search_posts sclient (PyVal.vStr q) (PyVal.vList (l.map PyVal.vStr))
          (PyVal.vInt n)).result
        = FetchResult.posts (searchRecordsOf q qs l) ∧
      (searchRecordsOf q qs l).length ≤ n.toNat * l.length := by
  have hval := validate_hot_ok l hne hstr n hn
  have hvals := validate_search_ok q hq l hne hstr n hn
  have hitems : pyStrItems (PyVal.vList (l.map PyVal.vStr)) = l := by
    simp [pyStrItems, PyVal.listItems, List.map_map]
    exact List.map_id l
  have hfa := fetchHotAll_ok client ps n l hc
  have hfs := fetchSearchAll_ok sclient q qs n l hcs
  refine ⟨?_, hotRecordsOf_length_le ps n.toNat hlen l, ?_,
    searchRecordsOf_length_le q qs n.toNat hlens l⟩
  · simp [download_hot_posts, hval, hitems, PyVal.toInt, hfa]
  · simp [search_posts, hvals, hitems, PyVal.toInt, PyVal.toStr, hfs]

/-- Witness for C5 at one forum, limit 10, one post per call. -/
theorem C5_length_bound_and_order_witness :
    (download_hot_posts oneClient (PyVal.vList (["ml"].map PyVal.vStr))
        (PyVal.vInt 10)).result
        = FetchResult.posts (hotRecordsOf (fun _ => [samplePost]) ["ml"]) ∧
      (hotRecordsOf (fun _ => [samplePost]) ["ml"]).length
        ≤ (10 : Int).toNat * (["ml"] : List String).length ∧
      (search_posts oneSearchClient (PyVal.vStr "gpt")
          (PyVal.vList (["ml"].map PyVal.vStr)) (PyVal.vInt 10)).result
        = FetchResult.posts (searchRecordsOf "gpt" (fun _ => [samplePost]) ["ml"]) ∧
      (searchRecordsOf "gpt" (fun _ => [samplePost]) ["ml"]).length
        ≤ (10 : Int).toNat * (["ml"] : List String).length :=
  C5_length_bound_and_order oneClient oneSearchClient ["ml"]
    (List.cons_ne_nil _ _) (by simp) 10 (by norm_num) "gpt" (by simp)
    (fun _ => [samplePost]) (fun _ => [samplePost])
    (fun _ _ => rfl) (fun _ _ => rfl) (fun _ => by simp) (fun _ => by simp)

/-- Claim C6: on every successful fetch, each search record carries
`search_query` equal to the input query and each record of either
fetcher carries `subreddit` equal to a forum name of the input list it
was fetched under; both are caller-supplied constants — the record
builders set them identically for every post object, whatever the post's
own attributes are. -/
theorem C6_constant_subreddit_and_query
    (client : String → Int → Except String (List Post))
    (sclient : String → String → Int → Except String (List Post))
    (names limit query snames slimit : PyVal) (rs ss : List PostRecord)
    (hh : (download_hot_posts client names limit).result = .posts rs)
    (hs : (search_posts sclient query snames slimit).result = .posts ss) :
    (∀ r ∈ rs, ∃ nm ∈ pyStrItems names, r.subreddit = Field.str nm) ∧
    (∀ r ∈ ss, r.search_query = Field.str query.toStr ∧
      ∃ nm ∈ pyStrItems snames, r.subreddit = Field.str nm) ∧
    (∀ (nm q2 : String) (p p2 : Post),
      (mkHotRecord nm p).subreddit = Field.str nm ∧
      (mkSearchRecord q2 nm p).subreddit = Field.str nm ∧
      (mkSearchRecord q2 nm p).search_query = Field.str q2 ∧
      (mkHotRecord nm p).subreddit = (mkHotRecord nm p2).subreddit) := by
  obtain ⟨cs, hf⟩ := download_posts_inv client names limit rs hh
  obtain ⟨cs2, hf2⟩ := search_posts_inv sclient query snames slimit ss hs
  refine ⟨?_, ?_, fun nm q2 p p2 => ⟨rfl, rfl, rfl, rfl⟩⟩
  · intro r hr
    obtain ⟨nm, hnm, p, rfl⟩ := mem_fetchHotAll_ok client _ _ rs cs hf r hr
    exact ⟨nm, hnm, rfl⟩
  · intro r hr
    obtain ⟨nm, hnm, p, rfl⟩ := mem_fetchSearchAll_ok sclient _ _ _ ss cs2 hf2 r hr
    exact ⟨rfl, nm, hnm, rfl⟩

/-- Witness for C6 at concrete one-forum fetches. -/
theorem C6_constant_fields_witness :
    (∀ r ∈ [mkHotRecord "ml" samplePost],
        ∃ nm ∈ pyStrItems (PyVal.vList [PyVal.vStr "ml"]),
          r.subreddit = Field.str nm) ∧
    (∀ r ∈ [mkSearchRecord "gpt" "ai" samplePost],
        r.search_query = Field.str (PyVal.vStr "gpt").toStr ∧
        ∃ nm ∈ pyStrItems (PyVal.vList [PyVal.vStr "ai"]),
          r.subreddit = Field.str nm) ∧
    (∀ (nm q2 : String) (p p2 : Post),
      (mkHotRecord nm p).subreddit = Field.str nm ∧
      (mkSearchRecord q2 nm p).subreddit = Field.str nm ∧
      (mkSearchRecord q2 nm p).search_query = Field.str q2 ∧
      (mkHotRecord nm p).subreddit = (mkHotRecord nm p2).subreddit) :=
  C6_constant_subreddit_and_query oneClient oneSearchClient
    (PyVal.vList [PyVal.vStr "ml"]) (PyVal.vInt 10) (PyVal.vStr "gpt")
    (PyVal.vList [PyVal.vStr "ai"]) (PyVal.vInt 10)
    [mkHotRecord "ml" samplePost] [mkSearchRecord "gpt" "ai" samplePost] rfl rfl

end Reddit
